import Mathlib

/-!
# WarpX spectral solver headers and external-field gather functor

A shallow embedding of

* `Source/FieldSolver/SpectralSolver/SpectralAlgorithms/PsatdAlgorithm.H`
* `Source/FieldSolver/SpectralSolver/SpectralSolverRZ.H`
* `Source/Particles/Gather/GetExternalFields.H`

Scalars (`amrex::Real`, `amrex::ParticleReal`, `Complex`) are an abstract type
carrying only the arithmetic that the embedded code uses.  C++ `int` and `long`
arguments are `Int`.  A member function that mutates its object becomes a
function returning the new object, a `const` member function a function that
only reads it.
-/

namespace WarpX

/-! ## Spectral field store -/

/-- Address of one value of a spectral field: the grid block (box) it lives in,
the azimuthal mode, and the index tuple `(i, j, k)` inside the block. -/
structure SpectralPoint where
  block : Nat
  mode : Nat
  i : Int
  j : Int
  k : Int
deriving DecidableEq, Repr

/-- Modelled from the spec: the enumeration `SpectralFieldIndex` is declared in
`SpectralFieldData.H`, which is not among the sources.  The baseline slots are
the three components of E, of B and of the current density, and the charge
density at the old and at the new time; `n_fields`, the enumerator that closes
the list, is their number. -/
inductive SpectralFieldIndex where
  | Ex | Ey | Ez | Bx | By | Bz | Jx | Jy | Jz | rho_old | rho_new
deriving DecidableEq, Repr

/-- Integer value of a baseline enumerator, counted from zero in declaration
order. -/
def SpectralFieldIndex.toInt : SpectralFieldIndex → Int
  | .Ex => 0 | .Ey => 1 | .Ez => 2
  | .Bx => 3 | .By => 4 | .Bz => 5
  | .Jx => 6 | .Jy => 7 | .Jz => 8
  | .rho_old => 9 | .rho_new => 10

/-- Modelled from the spec: `SpectralFieldIndex::n_fields`, the number of
baseline slots (the enumerator after `rho_new`). -/
def SpectralFieldIndex.n_fields : Int := 11

/-- Modelled from the spec: the enumeration `SpectralAvgFieldIndex` is declared
in `SpectralFieldData.H`, which is not among the sources.  It is the baseline
list followed by the time-averaged E and B components. -/
inductive SpectralAvgFieldIndex where
  | Ex | Ey | Ez | Bx | By | Bz | Jx | Jy | Jz | rho_old | rho_new
  | Ex_avg | Ey_avg | Ez_avg | Bx_avg | By_avg | Bz_avg
deriving DecidableEq, Repr

/-- Integer value of an enumerator of the averaged list, counted from zero in
declaration order. -/
def SpectralAvgFieldIndex.toInt : SpectralAvgFieldIndex → Int
  | .Ex => 0 | .Ey => 1 | .Ez => 2
  | .Bx => 3 | .By => 4 | .Bz => 5
  | .Jx => 6 | .Jy => 7 | .Jz => 8
  | .rho_old => 9 | .rho_new => 10
  | .Ex_avg => 11 | .Ey_avg => 12 | .Ez_avg => 13
  | .Bx_avg => 14 | .By_avg => 15 | .Bz_avg => 16

/-- Modelled from the spec: `SpectralAvgFieldIndex::n_fields`, the number of
slots of the averaged-Galilean set (the enumerator after `Bz_avg`). -/
def SpectralAvgFieldIndex.n_fields : Int := 17

/-- Modelled from the spec: `SpectralFieldData` (declared in
`SpectralFieldData.H`, not among the sources) is the registry of spectral
fields of one level: one value per spectral point and per field slot. -/
structure SpectralFieldData (K : Type) where
  fields : SpectralPoint → Int → K

/-! ## `PsatdAlgorithm` -/

/-- Data members of `class PsatdAlgorithm`.  A coefficient array holds one
value per spectral point; a k-vector component one value per block and index
along its axis. -/
structure PsatdAlgorithm (K : Type) where
  C_coef : SpectralPoint → K
  S_ck_coef : SpectralPoint → K
  T2_coef : SpectralPoint → K
  X1_coef : SpectralPoint → K
  X2_coef : SpectralPoint → K
  X3_coef : SpectralPoint → K
  X4_coef : SpectralPoint → K
  C1_coef : SpectralPoint → K
  C3_coef : SpectralPoint → K
  S1_coef : SpectralPoint → K
  S3_coef : SpectralPoint → K
  Psi1_coef : SpectralPoint → K
  Psi2_coef : SpectralPoint → K
  Psi3_coef : SpectralPoint → K
  Psi4_coef : SpectralPoint → K
  A1_coef : SpectralPoint → K
  A2_coef : SpectralPoint → K
  Rhoold_coef : SpectralPoint → K
  Rhonew_coef : SpectralPoint → K
  Jcoef_coef : SpectralPoint → K
  modified_kx_vec_centered : Nat → Int → K
  modified_ky_vec_centered : Nat → Int → K
  modified_kz_vec_centered : Nat → Int → K
  m_v_galilean : Fin 3 → K
  m_dt : K
  m_update_with_rho : Bool
  m_time_averaging : Bool
  m_is_galilean : Bool

/-- The inline body of `PsatdAlgorithm::getRequiredNumberOfFields`. -/
def PsatdAlgorithm.getRequiredNumberOfFields {K : Type} (a : PsatdAlgorithm K) : Int :=
  if a.m_time_averaging then
    SpectralAvgFieldIndex.n_fields
  else
    SpectralFieldIndex.n_fields

/-- Slots that hold E and B. -/
def fieldSlotsEB : List Int :=
  [SpectralFieldIndex.Ex.toInt, SpectralFieldIndex.Ey.toInt, SpectralFieldIndex.Ez.toInt,
   SpectralFieldIndex.Bx.toInt, SpectralFieldIndex.By.toInt, SpectralFieldIndex.Bz.toInt]

/-- Slots that hold the current density and the charge density. -/
def fieldSlotsJRho : List Int :=
  [SpectralFieldIndex.Jx.toInt, SpectralFieldIndex.Jy.toInt, SpectralFieldIndex.Jz.toInt,
   SpectralFieldIndex.rho_old.toInt, SpectralFieldIndex.rho_new.toInt]

/-- Slots that hold the time-averaged E and B. -/
def fieldSlotsAvg : List Int :=
  [SpectralAvgFieldIndex.Ex_avg.toInt, SpectralAvgFieldIndex.Ey_avg.toInt,
   SpectralAvgFieldIndex.Ez_avg.toInt, SpectralAvgFieldIndex.Bx_avg.toInt,
   SpectralAvgFieldIndex.By_avg.toInt, SpectralAvgFieldIndex.Bz_avg.toInt]

/-- Slots that a push overwrites: E and B, and the time-averaged E and B when
time averaging is enabled. -/
def PsatdAlgorithm.pushedSlots {K : Type} (a : PsatdAlgorithm K) : List Int :=
  fieldSlotsEB ++ (if a.m_time_averaging then fieldSlotsAvg else [])

/-- Slots that a push reads: E, B, the current density and the charge density,
and the time-averaged E and B when time averaging is enabled. -/
def PsatdAlgorithm.physicalSlots {K : Type} (a : PsatdAlgorithm K) : List Int :=
  fieldSlotsEB ++ fieldSlotsJRho ++ (if a.m_time_averaging then fieldSlotsAvg else [])

/-- Modelled from the spec: the update equations of
`PsatdAlgorithm::pushSpectralFields` are in `PsatdAlgorithm.cpp`, which is not
among the sources.  The weights say, for an algorithm instance (its precomputed
coefficients and configuration), a spectral point, an overwritten slot and a
slot that is read, which multiple of the old value of the second enters the new
value of the first. -/
abbrev UpdateWeights (K : Type) := PsatdAlgorithm K → SpectralPoint → Int → Int → K

/-- Linear combination of the entries of `row` at the slots `slots`, weighted
by `w`. -/
def linearCombination {K : Type} [Semiring K] (w : Int → K) (row : Int → K)
    (slots : List Int) : K :=
  (slots.map fun s => w s * row s).sum

/-- Modelled from the spec: `PsatdAlgorithm::pushSpectralFields` (body in
`PsatdAlgorithm.cpp`, not among the sources).  For every spectral index it
overwrites E and B (and, if enabled, the time-averaged E and B) by a linear
combination of their previous values and the current and charge density fields
at the same index, using the precomputed coefficients; every other slot keeps
its value.  The member function is declared `const`: it reads the algorithm
and returns the new store. -/
def PsatdAlgorithm.pushSpectralFields {K : Type} [Semiring K] (W : UpdateWeights K)
    (a : PsatdAlgorithm K) (f : SpectralFieldData K) : SpectralFieldData K :=
  { fields := fun p c =>
      if c ∈ a.pushedSlots then
        linearCombination (W a p c) (f.fields p) a.physicalSlots
      else
        f.fields p c }

/-- The type `amrex::IntVect`: one integer per grid direction. -/
abbrev IntVect := List Int

/-- Member functions of `SpectralFieldDataRZ` that `SpectralSolverRZ` calls,
with the store passed explicitly and handed back: `InitFilter(npass,
compensation, k_space)`, the scalar `ApplyFilter(field_index)` and the vector
`ApplyFilter(field_index1, field_index2, field_index3)`.  The class is declared
in `SpectralFieldDataRZ.H`, which is not among the sources; the solver is
embedded over any implementation of these members. -/
structure FieldDataOps (KS FD : Type) where
  InitFilter : FD → IntVect → Bool → KS → FD
  ApplyFilter : FD → Int → FD
  ApplyFilterVec : FD → Int → Int → Int → FD

/-- Modelled from the spec: `SpectralFieldDataRZ` (declared in
`SpectralFieldDataRZ.H`, not among the sources) is the registry of spectral
fields of one level, one value per spectral point and per field slot, together
with the filter kernel that `InitFilter` precomputes, one factor per spectral
point. -/
structure SpectralFieldDataRZ (K : Type) where
  fields : SpectralPoint → Int → K
  filter : SpectralPoint → K

/-- Modelled from the spec: the binomial smoothing kernel that
`SpectralFieldDataRZ::InitFilter` derives from the number of passes per axis,
the compensation flag and the wavevectors.  Its formula is not among the
sources; it is a parameter of the model. -/
abbrev FilterKernel (KS K : Type) := IntVect → Bool → KS → SpectralPoint → K

/-- Modelled from the spec: `SpectralFieldDataRZ::InitFilter` builds the
smoothing kernel in k-space once, from the wavevectors, the passes per axis and
the compensation flag, and keeps it in the store.  The fields are not
touched. -/
def SpectralFieldDataRZ.InitFilter {KS K : Type} (kernel : FilterKernel KS K)
    (fd : SpectralFieldDataRZ K) (filter_npass_each_dir : IntVect) (compensation : Bool)
    (k_space : KS) : SpectralFieldDataRZ K :=
  { fd with filter := kernel filter_npass_each_dir compensation k_space }

/-- The compound assignment `row(field_index) *= factor` on the values that one
spectral point holds. -/
def mulAssign {K : Type} [Mul K] (row : Int → K) (field_index : Int) (factor : K) : Int → K :=
  fun c => if c = field_index then row c * factor else row c

/-- Modelled from the spec: the scalar overload of
`SpectralFieldDataRZ::ApplyFilter` (body not among the sources) multiplies the
named spectral slot elementwise by the precomputed filter kernel, in place. -/
def SpectralFieldDataRZ.ApplyFilter {K : Type} [Mul K] (fd : SpectralFieldDataRZ K)
    (field_index : Int) : SpectralFieldDataRZ K :=
  { fd with fields := fun p => mulAssign (fd.fields p) field_index (fd.filter p) }

/-- Modelled from the spec: the vector overload of
`SpectralFieldDataRZ::ApplyFilter` (body not among the sources) multiplies the
three named spectral slots elementwise by the precomputed filter kernel, in
place: one pass over the spectral points, and at each point the three slots are
updated one after the other. -/
def SpectralFieldDataRZ.ApplyFilterVec {K : Type} [Mul K] (fd : SpectralFieldDataRZ K)
    (field_index1 field_index2 field_index3 : Int) : SpectralFieldDataRZ K :=
  { fd with fields := fun p =>
      let row1 := mulAssign (fd.fields p) field_index1 (fd.filter p)
      let row2 := mulAssign row1 field_index2 (fd.filter p)
      mulAssign row2 field_index3 (fd.filter p) }

/-- Modelled from the spec: the member functions of `SpectralFieldDataRZ` as
the spec describes them, for a kernel formula `kernel`. -/
def SpectralFieldDataRZ.ops {KS K : Type} [Mul K] (kernel : FilterKernel KS K) :
    FieldDataOps KS (SpectralFieldDataRZ K) :=
  { InitFilter := fun fd npass compensation k_space =>
      fd.InitFilter kernel npass compensation k_space
    ApplyFilter := fun fd field_index => fd.ApplyFilter field_index
    ApplyFilterVec := fun fd field_index1 field_index2 field_index3 =>
      fd.ApplyFilterVec field_index1 field_index2 field_index3 }

/-- Private data members of `class SpectralSolverRZ`.  The types
`SpectralKSpaceRZ`, `SpectralFieldDataRZ` and `SpectralBaseAlgorithmRZ` are
declared outside the sources and are the parameters `KS`, `FD` and `Alg`. -/
structure SpectralSolverRZ (KS FD Alg : Type) where
  k_space : KS
  field_data : FD
  algorithm : Alg

/-- The inline body of `SpectralSolverRZ::InitFilter`. -/
def SpectralSolverRZ.InitFilter {KS FD Alg : Type} (fdOps : FieldDataOps KS FD)
    (s : SpectralSolverRZ KS FD Alg) (filter_npass_each_dir : IntVect) (compensation : Bool) :
    SpectralSolverRZ KS FD Alg :=
  { s with
    field_data := fdOps.InitFilter s.field_data filter_npass_each_dir compensation s.k_space }

/-- The inline body of `SpectralSolverRZ::ApplyFilter (int const field_index)`. -/
def SpectralSolverRZ.ApplyFilter {KS FD Alg : Type} (fdOps : FieldDataOps KS FD)
    (s : SpectralSolverRZ KS FD Alg) (field_index : Int) : SpectralSolverRZ KS FD Alg :=
  { s with field_data := fdOps.ApplyFilter s.field_data field_index }

/-- The inline body of `SpectralSolverRZ::ApplyFilter (int const field_index1,
int const field_index2, int const field_index3)`. -/
def SpectralSolverRZ.ApplyFilterVec {KS FD Alg : Type} (fdOps : FieldDataOps KS FD)
    (s : SpectralSolverRZ KS FD Alg) (field_index1 field_index2 field_index3 : Int) :
    SpectralSolverRZ KS FD Alg :=
  { s with
    field_data := fdOps.ApplyFilterVec s.field_data field_index1 field_index2 field_index3 }

/-! ## `GetExternalField` -/

/-- The enumeration `ExternalFieldInitType { Constant, Parser }`. -/
inductive ExternalFieldInitType where
  | Constant
  | Parser
deriving DecidableEq, Repr

/-- Integer value of an enumerator: an unscoped enumeration counts from zero. -/
def ExternalFieldInitType.toInt : ExternalFieldInitType → Int
  | .Constant => 0
  | .Parser => 1

/-- Data members of `struct GetExternalField`.  The member `m_type` is the
integer that the object stores, which the call operator compares with the
enumerators; a parser is the function of `(x, y, z, t)` that it evaluates; the
position getter gives the position of particle `i`. -/
structure GetExternalField (R : Type) where
  m_type : Int
  m_field_value : Fin 3 → R
  m_xfield_partparser : R → R → R → R → R
  m_yfield_partparser : R → R → R → R → R
  m_zfield_partparser : R → R → R → R → R
  m_get_position : Int → R × R × R
  m_time : R

/-- Member functors that the call operator may evaluate. -/
inductive Callee where
  | get_position
  | xfield_partparser
  | yfield_partparser
  | zfield_partparser
deriving DecidableEq, Repr

/-- State in which a call of the operator leaves its caller: whether
`amrex::Abort` was called and with which message, the three reference
arguments, and the member functors evaluated on the way, in order. -/
structure CallResult (R : Type) where
  aborted : Option String
  field_x : R
  field_y : R
  field_z : R
  evaluated : List Callee

/-- The body of `GetExternalField::operator()`. -/
def GetExternalField.call {R : Type} [Add R] (g : GetExternalField R) (i : Int)
    (field_x field_y field_z : R) : CallResult R :=
  if g.m_type = ExternalFieldInitType.Constant.toInt then
    { aborted := none
      field_x := field_x + g.m_field_value 0
      field_y := field_y + g.m_field_value 1
      field_z := field_z + g.m_field_value 2
      evaluated := [] }
  else if g.m_type = ExternalFieldInitType.Parser.toInt then
    let pos := g.m_get_position i
    let x := pos.1
    let y := pos.2.1
    let z := pos.2.2
    { aborted := none
      field_x := field_x + g.m_xfield_partparser x y z g.m_time
      field_y := field_y + g.m_yfield_partparser x y z g.m_time
      field_z := field_z + g.m_zfield_partparser x y z g.m_time
      evaluated := [Callee.get_position, Callee.xfield_partparser,
        Callee.yfield_partparser, Callee.zfield_partparser] }
  else
    { aborted := some "ExternalFieldInitType not known!!! \n"
      field_x := field_x
      field_y := field_y
      field_z := field_z
      evaluated := [] }

/-! ## Sample objects -/

/-- An algorithm instance over the integers: every coefficient is `c`. -/
def sampleAlgorithm (c : Int) (update_with_rho time_averaging is_galilean : Bool) :
    PsatdAlgorithm Int :=
  { C_coef := fun _ => c, S_ck_coef := fun _ => c, T2_coef := fun _ => c,
    X1_coef := fun _ => c, X2_coef := fun _ => c, X3_coef := fun _ => c, X4_coef := fun _ => c,
    C1_coef := fun _ => c, C3_coef := fun _ => c, S1_coef := fun _ => c, S3_coef := fun _ => c,
    Psi1_coef := fun _ => c, Psi2_coef := fun _ => c, Psi3_coef := fun _ => c,
    Psi4_coef := fun _ => c, A1_coef := fun _ => c, A2_coef := fun _ => c,
    Rhoold_coef := fun _ => c, Rhonew_coef := fun _ => c, Jcoef_coef := fun _ => c,
    modified_kx_vec_centered := fun _ n => n, modified_ky_vec_centered := fun _ n => n,
    modified_kz_vec_centered := fun _ n => n,
    m_v_galilean := fun _ => c, m_dt := c + 1,
    m_update_with_rho := update_with_rho, m_time_averaging := time_averaging,
    m_is_galilean := is_galilean }

/-- Update weights over the integers that depend on the coefficients, the
point and both slots. -/
def sampleWeights : UpdateWeights Int :=
  fun a p target source => a.C_coef p + a.X1_coef p * target + source + p.i

/-- The store whose fields all vanish. -/
def zeroFieldData : SpectralFieldData Int :=
  { fields := fun _ _ => 0 }

/-- A functor over the integers in `Constant` mode. -/
def sampleConstantField (value : Fin 3 → Int) (t : Int) (shift : Int) : GetExternalField Int :=
  { m_type := ExternalFieldInitType.Constant.toInt
    m_field_value := value
    m_xfield_partparser := fun x y z t => x + y + z + t + shift
    m_yfield_partparser := fun x y _ _ => x * y + shift
    m_zfield_partparser := fun _ _ z t => z * t + shift
    m_get_position := fun i => (i + shift, 2 * i, 3 * i)
    m_time := t }

/-! ## Lemmas -/

theorem linearCombination_of_zero {K : Type} [Semiring K] (w : Int → K) (row : Int → K)
    (slots : List Int) (h : ∀ c ∈ slots, row c = 0) : linearCombination w row slots = 0 := by
  unfold linearCombination
  apply List.sum_eq_zero
  intro x hx
  obtain ⟨c, hc, rfl⟩ := List.mem_map.mp hx
  rw [h c hc, mul_zero]

theorem parser_value_ne_constant_value :
    ¬ ExternalFieldInitType.Parser.toInt = ExternalFieldInitType.Constant.toInt := by
  decide

theorem call_in_constant_mode {R : Type} [Add R] (g : GetExternalField R) (i : Int)
    (field_x field_y field_z : R) (h : g.m_type = ExternalFieldInitType.Constant.toInt) :
    g.call i field_x field_y field_z =
      { aborted := none
        field_x := field_x + g.m_field_value 0
        field_y := field_y + g.m_field_value 1
        field_z := field_z + g.m_field_value 2
        evaluated := [] } := by
  unfold GetExternalField.call
  rw [if_pos h]

theorem call_in_parser_mode {R : Type} [Add R] (g : GetExternalField R) (i : Int)
    (field_x field_y field_z : R) (h : g.m_type = ExternalFieldInitType.Parser.toInt) :
    g.call i field_x field_y field_z =
      { aborted := none
        field_x := field_x + g.m_xfield_partparser (g.m_get_position i).1
          (g.m_get_position i).2.1 (g.m_get_position i).2.2 g.m_time
        field_y := field_y + g.m_yfield_partparser (g.m_get_position i).1
          (g.m_get_position i).2.1 (g.m_get_position i).2.2 g.m_time
        field_z := field_z + g.m_zfield_partparser (g.m_get_position i).1
          (g.m_get_position i).2.1 (g.m_get_position i).2.2 g.m_time
        evaluated := [Callee.get_position, Callee.xfield_partparser,
          Callee.yfield_partparser, Callee.zfield_partparser] } := by
  have hne : ¬ g.m_type = ExternalFieldInitType.Constant.toInt := by
    rw [h]; exact parser_value_ne_constant_value
  unfold GetExternalField.call
  rw [if_neg hne, if_pos h]

theorem call_in_unknown_mode {R : Type} [Add R] (g : GetExternalField R) (i : Int)
    (field_x field_y field_z : R) (hc : ¬ g.m_type = ExternalFieldInitType.Constant.toInt)
    (hp : ¬ g.m_type = ExternalFieldInitType.Parser.toInt) :
    g.call i field_x field_y field_z =
      { aborted := some "ExternalFieldInitType not known!!! \n"
        field_x := field_x
        field_y := field_y
        field_z := field_z
        evaluated := [] } := by
  unfold GetExternalField.call
  rw [if_neg hc, if_neg hp]

/-! ## `PsatdAlgorithm::getRequiredNumberOfFields` -/

/-- C1: `getRequiredNumberOfFields` is decided by the time-averaging flag
alone.  Two algorithm instances with the same `m_time_averaging` report the
same count, whatever their coefficients, Galilean velocity, `m_is_galilean`,
`m_update_with_rho` and `m_dt` are, and the count is
`SpectralAvgFieldIndex::n_fields` when the flag is true and
`SpectralFieldIndex::n_fields` when it is false. -/
theorem getRequiredNumberOfFields_by_time_averaging {K : Type} (a b : PsatdAlgorithm K)
    (h : a.m_time_averaging = b.m_time_averaging) :
    a.getRequiredNumberOfFields = b.getRequiredNumberOfFields ∧
    a.getRequiredNumberOfFields =
      (if a.m_time_averaging = true then SpectralAvgFieldIndex.n_fields
       else SpectralFieldIndex.n_fields) := by
  unfold PsatdAlgorithm.getRequiredNumberOfFields
  rw [h]
  exact ⟨rfl, rfl⟩

theorem getRequiredNumberOfFields_by_time_averaging_witness :
    (sampleAlgorithm 1 true true false).m_time_averaging =
      (sampleAlgorithm 5 false true true).m_time_averaging ∧
    (sampleAlgorithm 1 true true false).getRequiredNumberOfFields =
      (sampleAlgorithm 5 false true true).getRequiredNumberOfFields ∧
    (sampleAlgorithm 1 true true false).getRequiredNumberOfFields = 17 :=
  ⟨rfl,
   (getRequiredNumberOfFields_by_time_averaging (sampleAlgorithm 1 true true false)
      (sampleAlgorithm 5 false true true) rfl).1,
   (getRequiredNumberOfFields_by_time_averaging (sampleAlgorithm 1 true true false)
      (sampleAlgorithm 5 false true true) rfl).2⟩

/-- C2: an instance configured with time averaging (averaged-Galilean)
requires strictly more fields than an instance configured without it
(baseline). -/
theorem getRequiredNumberOfFields_averaged_gt_baseline {K : Type}
    (averaged baseline : PsatdAlgorithm K)
    (ha : averaged.m_time_averaging = true) (hb : baseline.m_time_averaging = false) :
    baseline.getRequiredNumberOfFields < averaged.getRequiredNumberOfFields := by
  unfold PsatdAlgorithm.getRequiredNumberOfFields
  rw [ha, hb]
  decide

theorem getRequiredNumberOfFields_averaged_gt_baseline_witness :
    (sampleAlgorithm 2 false true true).m_time_averaging = true ∧
    (sampleAlgorithm 3 true false false).m_time_averaging = false ∧
    (sampleAlgorithm 3 true false false).getRequiredNumberOfFields <
      (sampleAlgorithm 2 false true true).getRequiredNumberOfFields :=
  ⟨rfl, rfl,
   getRequiredNumberOfFields_averaged_gt_baseline (sampleAlgorithm 2 false true true)
     (sampleAlgorithm 3 true false false) rfl rfl⟩

/-- C7: zero-input stability of the push.  If the E, B, current-density and
charge-density spectral fields (and the time-averaged E and B fields when time
averaging is enabled) vanish at every spectral index, then after
`pushSpectralFields` each of them still vanishes at every spectral index, for
every configuration and every choice of the update coefficients. -/
theorem pushSpectralFields_zero_input {K : Type} [Semiring K] (W : UpdateWeights K)
    (a : PsatdAlgorithm K) (f : SpectralFieldData K)
    (h : ∀ p : SpectralPoint, ∀ c ∈ a.physicalSlots, f.fields p c = 0) :
    ∀ p : SpectralPoint, ∀ c ∈ a.physicalSlots, (a.pushSpectralFields W f).fields p c = 0 := by
  intro p c hc
  unfold PsatdAlgorithm.pushSpectralFields
  by_cases hp : c ∈ a.pushedSlots
  · simp only [hp, if_true]
    exact linearCombination_of_zero _ _ _ (h p)
  · simp only [hp, if_false]
    exact h p c hc

theorem pushSpectralFields_zero_input_witness :
    (∀ p : SpectralPoint, ∀ c ∈ (sampleAlgorithm 3 true true true).physicalSlots,
      zeroFieldData.fields p c = 0) ∧
    (∀ p : SpectralPoint, ∀ c ∈ (sampleAlgorithm 3 true true true).physicalSlots,
      ((sampleAlgorithm 3 true true true).pushSpectralFields sampleWeights
        zeroFieldData).fields p c = 0) :=
  ⟨fun _ _ _ => rfl,
   pushSpectralFields_zero_input sampleWeights (sampleAlgorithm 3 true true true) zeroFieldData
     (fun _ _ _ => rfl)⟩

/-! ## `SpectralSolverRZ` filtering -/

/-- C4: for every solver state and every three field indices, the vector
overload `ApplyFilter(i1, i2, i3)` leaves the spectral field store, and the
whole solver, in exactly the state that the three scalar calls
`ApplyFilter(i1)`, `ApplyFilter(i2)`, `ApplyFilter(i3)` made in sequence leave
it in. -/
theorem ApplyFilterVec_eq_three_ApplyFilter {KS K Alg : Type} [Mul K]
    (kernel : FilterKernel KS K) (s : SpectralSolverRZ KS (SpectralFieldDataRZ K) Alg)
    (i1 i2 i3 : Int) :
    (s.ApplyFilterVec (SpectralFieldDataRZ.ops kernel) i1 i2 i3).field_data
        = (((s.ApplyFilter (SpectralFieldDataRZ.ops kernel) i1).ApplyFilter
            (SpectralFieldDataRZ.ops kernel) i2).ApplyFilter
            (SpectralFieldDataRZ.ops kernel) i3).field_data ∧
    s.ApplyFilterVec (SpectralFieldDataRZ.ops kernel) i1 i2 i3
        = ((s.ApplyFilter (SpectralFieldDataRZ.ops kernel) i1).ApplyFilter
            (SpectralFieldDataRZ.ops kernel) i2).ApplyFilter
            (SpectralFieldDataRZ.ops kernel) i3 := by
  have key : s.ApplyFilterVec (SpectralFieldDataRZ.ops kernel) i1 i2 i3
      = ((s.ApplyFilter (SpectralFieldDataRZ.ops kernel) i1).ApplyFilter
          (SpectralFieldDataRZ.ops kernel) i2).ApplyFilter
          (SpectralFieldDataRZ.ops kernel) i3 := by
    simp only [SpectralSolverRZ.ApplyFilterVec, SpectralSolverRZ.ApplyFilter,
      SpectralFieldDataRZ.ops, SpectralFieldDataRZ.ApplyFilterVec,
      SpectralFieldDataRZ.ApplyFilter]
  exact ⟨congrArg SpectralSolverRZ.field_data key, key⟩

/-- C5: the filter operations of the solver are pure delegations to its field
store.  `ApplyFilter(i)` changes `field_data` as `field_data.ApplyFilter(i)`
does, `ApplyFilter(i1, i2, i3)` as `field_data.ApplyFilter(i1, i2, i3)` with the
indices in the same order, and `InitFilter(npass, compensation)` as
`field_data.InitFilter(npass, compensation, k_space)` with the k-space of the
solver; each of the three leaves `k_space` and `algorithm` unchanged.  This
holds for every implementation of the store. -/
theorem solver_filter_delegates {KS FD Alg : Type} (fdOps : FieldDataOps KS FD)
    (s : SpectralSolverRZ KS FD Alg) (i i1 i2 i3 : Int) (npass : IntVect)
    (compensation : Bool) :
    ((s.ApplyFilter fdOps i).field_data = fdOps.ApplyFilter s.field_data i ∧
      (s.ApplyFilter fdOps i).k_space = s.k_space ∧
      (s.ApplyFilter fdOps i).algorithm = s.algorithm) ∧
    ((s.ApplyFilterVec fdOps i1 i2 i3).field_data = fdOps.ApplyFilterVec s.field_data i1 i2 i3 ∧
      (s.ApplyFilterVec fdOps i1 i2 i3).k_space = s.k_space ∧
      (s.ApplyFilterVec fdOps i1 i2 i3).algorithm = s.algorithm) ∧
    ((s.InitFilter fdOps npass compensation).field_data
        = fdOps.InitFilter s.field_data npass compensation s.k_space ∧
      (s.InitFilter fdOps npass compensation).k_space = s.k_space ∧
      (s.InitFilter fdOps npass compensation).algorithm = s.algorithm) :=
  ⟨⟨rfl, rfl, rfl⟩, ⟨rfl, rfl, rfl⟩, ⟨rfl, rfl, rfl⟩⟩

/-! ## `GetExternalField::operator()` -/

/-- C8: the call operator adds the external field to the values passed in,
component by component.  In `Constant` mode the outputs are
`field_x + m_field_value[0]`, `field_y + m_field_value[1]`,
`field_z + m_field_value[2]`; in `Parser` mode they are the inputs plus the
three parsers evaluated at `(x, y, z, m_time)`, where `(x, y, z)` is the
position that `m_get_position` returns for particle `i`.  Neither mode aborts,
and an output component does not change when the other two input components
do. -/
theorem call_adds_external_field {R : Type} [Add R] (g : GetExternalField R) (i : Int)
    (field_x field_y field_z : R) :
    (g.m_type = ExternalFieldInitType.Constant.toInt →
      (g.call i field_x field_y field_z).aborted = none ∧
      (g.call i field_x field_y field_z).field_x = field_x + g.m_field_value 0 ∧
      (g.call i field_x field_y field_z).field_y = field_y + g.m_field_value 1 ∧
      (g.call i field_x field_y field_z).field_z = field_z + g.m_field_value 2) ∧
    (g.m_type = ExternalFieldInitType.Parser.toInt →
      (g.call i field_x field_y field_z).aborted = none ∧
      (g.call i field_x field_y field_z).field_x = field_x +
        g.m_xfield_partparser (g.m_get_position i).1 (g.m_get_position i).2.1
          (g.m_get_position i).2.2 g.m_time ∧
      (g.call i field_x field_y field_z).field_y = field_y +
        g.m_yfield_partparser (g.m_get_position i).1 (g.m_get_position i).2.1
          (g.m_get_position i).2.2 g.m_time ∧
      (g.call i field_x field_y field_z).field_z = field_z +
        g.m_zfield_partparser (g.m_get_position i).1 (g.m_get_position i).2.1
          (g.m_get_position i).2.2 g.m_time) ∧
    (∀ other_x other_y other_z : R,
      (g.call i field_x other_y other_z).field_x = (g.call i field_x field_y field_z).field_x ∧
      (g.call i other_x field_y other_z).field_y = (g.call i field_x field_y field_z).field_y ∧
      (g.call i other_x other_y field_z).field_z = (g.call i field_x field_y field_z).field_z) := by
  refine ⟨?_, ?_, ?_⟩
  · intro h
    rw [call_in_constant_mode g i field_x field_y field_z h]
    exact ⟨rfl, rfl, rfl, rfl⟩
  · intro h
    rw [call_in_parser_mode g i field_x field_y field_z h]
    exact ⟨rfl, rfl, rfl, rfl⟩
  · intro other_x other_y other_z
    by_cases hc : g.m_type = ExternalFieldInitType.Constant.toInt
    · simp only [call_in_constant_mode g i _ _ _ hc, and_self]
    · by_cases hp : g.m_type = ExternalFieldInitType.Parser.toInt
      · simp only [call_in_parser_mode g i _ _ _ hp, and_self]
      · simp only [call_in_unknown_mode g i _ _ _ hc hp, and_self]

/-- C9: the call operator aborts, with the message
"ExternalFieldInitType not known!!!", if and only if `m_type` is neither
`Constant` nor `Parser`; for both values of the enumeration the abort branch is
not reached; and when the abort branch is taken the three field components
have not been modified. -/
theorem call_aborts_iff_unknown_type {R : Type} [Add R] (g : GetExternalField R) (i : Int)
    (field_x field_y field_z : R) :
    ((g.call i field_x field_y field_z).aborted
        = some "ExternalFieldInitType not known!!! \n" ↔
      (g.m_type ≠ ExternalFieldInitType.Constant.toInt ∧
        g.m_type ≠ ExternalFieldInitType.Parser.toInt)) ∧
    ((g.call i field_x field_y field_z).aborted ≠ none ↔
      (g.m_type ≠ ExternalFieldInitType.Constant.toInt ∧
        g.m_type ≠ ExternalFieldInitType.Parser.toInt)) ∧
    (∀ t : ExternalFieldInitType,
      (GetExternalField.call { g with m_type := t.toInt } i field_x field_y field_z).aborted
        = none) ∧
    ((g.call i field_x field_y field_z).aborted ≠ none →
      (g.call i field_x field_y field_z).field_x = field_x ∧
      (g.call i field_x field_y field_z).field_y = field_y ∧
      (g.call i field_x field_y field_z).field_z = field_z) := by
  have hnone : ∀ t : ExternalFieldInitType,
      (GetExternalField.call { g with m_type := t.toInt } i field_x field_y field_z).aborted
        = none := by
    intro t
    cases t
    · rw [call_in_constant_mode _ i field_x field_y field_z rfl]
    · rw [call_in_parser_mode _ i field_x field_y field_z rfl]
  by_cases hc : g.m_type = ExternalFieldInitType.Constant.toInt
  · refine ⟨?_, ?_, hnone, ?_⟩ <;>
      simp [call_in_constant_mode g i field_x field_y field_z hc, hc]
  · by_cases hp : g.m_type = ExternalFieldInitType.Parser.toInt
    · refine ⟨?_, ?_, hnone, ?_⟩ <;>
        simp [call_in_parser_mode g i field_x field_y field_z hp, hp]
    · refine ⟨?_, ?_, hnone, ?_⟩ <;>
        simp [call_in_unknown_mode g i field_x field_y field_z hc hp, hc, hp]

/-- C10: in `Constant` mode the functor does not consult the particle.  Two
functors in `Constant` mode with the same `m_field_value`, called for any two
particle indices on the same input, leave the same outputs, whatever their
`m_time`, `m_get_position` and parsers are; the position getter and the
parsers are not evaluated. -/
theorem call_constant_ignores_particle {R : Type} [Add R] (g h : GetExternalField R)
    (i j : Int) (field_x field_y field_z : R)
    (hg : g.m_type = ExternalFieldInitType.Constant.toInt)
    (hh : h.m_type = ExternalFieldInitType.Constant.toInt)
    (hv : g.m_field_value = h.m_field_value) :
    g.call i field_x field_y field_z = h.call j field_x field_y field_z ∧
    (g.call i field_x field_y field_z).evaluated = [] ∧
    (h.call j field_x field_y field_z).evaluated = [] := by
  rw [call_in_constant_mode g i field_x field_y field_z hg,
    call_in_constant_mode h j field_x field_y field_z hh, hv]
  exact ⟨rfl, rfl, rfl⟩

theorem call_constant_ignores_particle_witness :
    (sampleConstantField ![4, 5, 6] 1 0).call 2 10 20 30
        = (sampleConstantField ![4, 5, 6] 7 5).call 9 10 20 30 ∧
    ((sampleConstantField ![4, 5, 6] 1 0).call 2 10 20 30).evaluated = [] ∧
    ((sampleConstantField ![4, 5, 6] 7 5).call 9 10 20 30).evaluated = [] :=
  call_constant_ignores_particle (sampleConstantField ![4, 5, 6] 1 0)
    (sampleConstantField ![4, 5, 6] 7 5) 2 9 10 20 30 rfl rfl rfl

end WarpX
